import Mathlib

/-!
Verification development for the appointment scheduling logic of a salon
booking application (clients, professionals, appointments with calendar
scheduling).  The data model and operations below are shallow embeddings of
the application's validation schemas (shared/types.ts), the appointment
submission handler and calendar derivation (react-app/pages/Appointments.tsx),
and the scheduler operations of the shared store, which are modelled from the
design document where noted.  JavaScript numbers are modelled as rationals,
timestamps as milliseconds since the epoch (an unparseable date string
becomes none, modelling NaN), and fallible operations return Except.
-/

namespace SalonFlow

/-- A field-level validation failure, as produced by the schema layer:
a path to the offending field and a user-displayable message. -/
structure FieldError where
  path : List String
  message : String
deriving DecidableEq, Repr

/-- Client record, after ClientSchema: optional numeric id, owner id,
required non-empty name, optional contact fields. -/
structure Client where
  id : Option Rat
  user_id : String
  name : String
  phone : Option String
  email : Option String
  notes : Option String
deriving DecidableEq, Repr

/-- Appointment record, after AppointmentSchema: optional numeric id,
owner id, numeric client reference, denormalized client name, service and
professional as strings, price as a number (stored in minor units), the two
date fields as plain strings, and the attended flag. -/
structure AppointmentRecord where
  id : Option Rat
  user_id : String
  client_id : Rat
  client_name : String
  service : String
  price : Rat
  professional : String
  appointment_date : String
  end_date : String
  attended : Bool
deriving DecidableEq, Repr

/-- Input domain of AppointmentFormSchema: the create schema with
client_name omitted.  The attended flag is optional in the form data and
defaulted at submission. -/
structure FormInput where
  client_id : Rat
  service : String
  price : Rat
  professional : String
  appointment_date : String
  end_date : String
  attended : Option Bool
deriving DecidableEq, Repr

/-- JavaScript Math.round on a rational: round half toward positive
infinity, i.e. the floor of the argument plus one half. -/
def jsRound (q : Rat) : Int :=
  ⌊q + 1 / 2⌋

/-- JavaScript comparison new Date(e) > new Date(s) on parsed timestamps:
if either operand is an invalid date (NaN), every comparison is false. -/
def jsDateGt : Option Int → Option Int → Bool
  | some e, some s => decide (s < e)
  | _, _ => false

/-- The date refinement attached to AppointmentSchema and
AppointmentFormSchema: its error is reported at path end_date with the
end-after-start message. -/
def dateRefinementErr : FieldError :=
  { path := ["end_date"], message := "A data de fim deve ser posterior à data de início" }

/-- The refinement predicate of the appointment schemas, parameterized by
the date-string parser (JS Date.parse semantics are environment supplied):
new Date(end_date) > new Date(appointment_date). -/
def dateOrderOk (parse : String → Option Int) (a : FormInput) : Bool :=
  jsDateGt (parse a.end_date) (parse a.appointment_date)

/-- Field checks of the base appointment schema restricted to the form
fields (BaseAppointmentSchema with id, user_id and client_name omitted):
client_id at least 1, non-empty service, positive price, non-empty
professional; the two date fields are declared as plain strings with no
format check. -/
def formBaseErrors (a : FormInput) : List FieldError :=
  (if a.client_id < 1 then [{ path := ["client_id"], message := "Cliente é obrigatório" }] else [])
  ++ (if a.service.length < 1 then [{ path := ["service"], message := "Serviço é obrigatório" }] else [])
  ++ (if a.price ≤ 0 then [{ path := ["price"], message := "Preço deve ser positivo" }] else [])
  ++ (if a.professional.length < 1 then [{ path := ["professional"], message := "Profissional é obrigatório" }] else [])

/-- AppointmentFormSchema: the base object checks, then (only when they all
pass, as zod runs refinements after a successful base parse) the date-order
refinement, whose failure is attributed to end_date. -/
def appointmentFormErrors (parse : String → Option Int) (a : FormInput) : List FieldError :=
  let base := formBaseErrors a
  if base = [] then
    if dateOrderOk parse a then [] else [dateRefinementErr]
  else base

/-- A form input is accepted by AppointmentFormSchema when it produces no
field errors. -/
def formAccepts (parse : String → Option Int) (a : FormInput) : Bool :=
  appointmentFormErrors parse a = []

/-- Client lookup of onSubmit: clients.find with strict equality of the
optional stored id against the numeric form client_id. -/
def findClient (clients : List Client) (cid : Rat) : Option Client :=
  clients.find? (fun c => c.id == some cid)

/-- The appointment payload built by onSubmit from the form data and the
resolved client, for an update: the edited appointment's id and owner are
kept, the price is converted to minor units with Math.round(price * 100),
the client name is the resolved client's name, and attended defaults to
false. -/
def mergedRecord (editing : AppointmentRecord) (client : Client) (data : FormInput) : AppointmentRecord :=
  { id := editing.id
    user_id := editing.user_id
    client_id := data.client_id
    client_name := client.name
    service := data.service
    price := (jsRound (data.price * 100) : Int)
    professional := data.professional
    appointment_date := data.appointment_date
    end_date := data.end_date
    attended := data.attended.getD false }

/-- The appointment payload built by onSubmit for a creation, before the
store assigns an id; the owner id is passed alongside. -/
def newRecord (uid : String) (client : Client) (data : FormInput) : AppointmentRecord :=
  { id := none
    user_id := uid
    client_id := data.client_id
    client_name := client.name
    service := data.service
    price := (jsRound (data.price * 100) : Int)
    professional := data.professional
    appointment_date := data.appointment_date
    end_date := data.end_date
    attended := data.attended.getD false }

/-- Outcome of a form submission. -/
inductive SubmitOutcome where
  | schemaRejected
  | clientNotFound
  | saved
deriving DecidableEq, Repr

/-- A write issued to the persistence store. -/
inductive StoreWrite where
  | insert (uid : String) (a : AppointmentRecord)
  | updateW (a : AppointmentRecord)
deriving DecidableEq, Repr

/-- The submission handler onSubmit, after the schema gate of the form
resolver: resolve the client (a missing client aborts with an error and no
write); otherwise derive the payload and issue exactly one store call,
updateAppointment when editing, addAppointment otherwise. -/
def onSubmitWrites (clients : List Client) (editing : Option AppointmentRecord)
    (uid : String) (data : FormInput) : SubmitOutcome × List StoreWrite :=
  match findClient clients data.client_id with
  | none => (.clientNotFound, [])
  | some client =>
    match editing with
    | some e => (.saved, [.updateW (mergedRecord e client data)])
    | none => (.saved, [.insert uid (newRecord uid client data)])

/-- The full submission pipeline: the form resolver validates the data
against AppointmentFormSchema before onSubmit runs; a schema failure never
reaches the handler. -/
def submitPipeline (parse : String → Option Int) (clients : List Client)
    (editing : Option AppointmentRecord) (uid : String) (data : FormInput) :
    SubmitOutcome × List StoreWrite :=
  if formAccepts parse data then onSubmitWrites clients editing uid data
  else (.schemaRejected, [])

/-- Effect of one store write on the stored set of appointments: an insert
appends the record with its freshly assigned id, an update replaces the
record with the matching id. -/
def applyWrite (freshId : Rat) (store : List AppointmentRecord) : StoreWrite → List AppointmentRecord
  | .insert _ a => store ++ [{ a with id := some freshId }]
  | .updateW a => store.map (fun x => if x.id == a.id then a else x)

/-- Effect of a write list on the stored set. -/
def applyWrites (freshId : Rat) (store : List AppointmentRecord) : List StoreWrite → List AppointmentRecord
  | [] => store
  | w :: ws => applyWrites freshId (applyWrite freshId store w) ws

/-- A calendar event as derived for display: title from the denormalized
names, start from the parsed appointment date, end one hour later. -/
structure CalendarEvent where
  id : Option Rat
  title : String
  startMs : Option Int
  endMs : Option Int
deriving DecidableEq, Repr

/-- The calendarEvents derivation: for each appointment, start is the
parsed appointment_date and end is moment(start).add(1, hours), i.e. the
start plus 3600000 milliseconds; an invalid start stays invalid. -/
def calendarEventOf (parse : String → Option Int) (a : AppointmentRecord) : CalendarEvent :=
  let s := parse a.appointment_date
  { id := a.id
    title := a.client_name ++ " - " ++ a.service
    startMs := s
    endMs := s.map (fun t => t + 3600000) }

/-- The edit form population of handleSelectEvent: the stored price in
minor units is displayed in major units as price / 100. -/
def editFormPrice (p : Rat) : Rat :=
  p / 100

/-- Modelled from the spec: a persisted appointment as seen by the
scheduler of the shared store (the store module is imported by the
submission page but is not among the provided sources); timestamps are
integers, references are numeric ids.  The end timestamp is named endT
since end is reserved. -/
structure SchedAppt where
  id : Int
  client_id : Int
  professional_id : Int
  service_id : Int
  price : Int
  start : Int
  endT : Int
deriving DecidableEq, Repr

/-- Modelled from the spec: a candidate appointment submitted to the
scheduler, with an optional id (absent for not-yet-persisted candidates). -/
structure SchedCandidate where
  id : Option Int
  client_id : Int
  professional_id : Int
  service_id : Int
  price : Int
  start : Int
  endT : Int
deriving DecidableEq, Repr

/-- Modelled from the spec: the owner's record sets against which the
candidate's references must resolve. -/
structure SchedEnv where
  clients : List Int
  professionals : List Int
  services : List Int
deriving DecidableEq, Repr

/-- Which reference failed to resolve. -/
inductive RefKind where
  | client
  | professional
  | service
deriving DecidableEq, Repr

/-- Modelled from the spec: the structured rejection reasons of validate. -/
inductive Reason where
  | invalidInterval
  | unresolvedReference (k : RefKind)
  | schedulingConflict (b : SchedAppt)
deriving DecidableEq, Repr

/-- Result of validate: Ok, or Rejected with a reason. -/
inductive VResult where
  | ok
  | rejected (r : Reason)
deriving DecidableEq, Repr

/-- Modelled from the spec: reference resolution of validate; reports the
first of client, professional, service that does not resolve to an owned
record. -/
def unresolvedRef (env : SchedEnv) (cand : SchedCandidate) : Option RefKind :=
  if env.clients.contains cand.client_id then
    if env.professionals.contains cand.professional_id then
      if env.services.contains cand.service_id then none
      else some .service
    else some .professional
  else some .client

/-- Appointments selected by the conflict scan: same professional as the
candidate, not the excluded id, and half-open interval overlap
s1 < e2 AND s2 < e1. -/
def conflictPred (cand : SchedCandidate) (excl : Option Int) (b : SchedAppt) : Bool :=
  b.professional_id == cand.professional_id
    && (match excl with
        | some i => b.id != i
        | none => true)
    && decide (cand.start < b.endT ∧ b.start < cand.endT)

/-- Modelled from the spec: the conflict scan of validate over the
existing appointments, restricted to the candidate's professional and to
ids different from excludeId, reporting an overlapping appointment. -/
def findConflict (cand : SchedCandidate) (existing : List SchedAppt)
    (excl : Option Int) : Option SchedAppt :=
  existing.find? (conflictPred cand excl)

/-- Modelled from the spec: validate(candidate, existingAppointments,
excludeId): reject a non-strict interval as InvalidInterval, then a
dangling reference as UnresolvedReference, then an overlap with a same
professional appointment (other than excludeId) as SchedulingConflict;
otherwise Ok. -/
def validate (env : SchedEnv) (cand : SchedCandidate) (existing : List SchedAppt)
    (excl : Option Int) : VResult :=
  if cand.endT ≤ cand.start then .rejected .invalidInterval
  else
    match unresolvedRef env cand with
    | some k => .rejected (.unresolvedReference k)
    | none =>
      match findConflict cand existing excl with
      | some b => .rejected (.schedulingConflict b)
      | none => .ok

/-- The persisted form of a candidate under a given id. -/
def persistCand (cand : SchedCandidate) (i : Int) : SchedAppt :=
  { id := i
    client_id := cand.client_id
    professional_id := cand.professional_id
    service_id := cand.service_id
    price := cand.price
    start := cand.start
    endT := cand.endT }

/-- Modelled from the spec: commit(candidate) delegates to the store only
after validate returns Ok, appending the candidate under a freshly
assigned id; a rejected candidate produces an error and no write. -/
def commitOp (env : SchedEnv) (cand : SchedCandidate) (existing : List SchedAppt)
    (freshId : Int) : Except Reason (List SchedAppt) :=
  match validate env cand existing none with
  | .ok => .ok (existing ++ [persistCand cand freshId])
  | .rejected r => .error r

/-- Modelled from the spec: update(candidate) validates with
excludeId = candidate.id so the appointment does not conflict with its own
prior state, then replaces the stored record with the matching id. -/
def updateOp (env : SchedEnv) (cand : SchedCandidate) (i : Int)
    (existing : List SchedAppt) : Except Reason (List SchedAppt) :=
  match validate env cand existing (some i) with
  | .ok => .ok (existing.map (fun b => if b.id == i then persistCand cand i else b))
  | .rejected r => .error r

/-- The conflict scan written with the traversed list threaded through as
explicit state, mirroring that the scan only reads the existing set: it
returns the found appointment together with the set it leaves behind. -/
def scanConflictSt (cand : SchedCandidate) (excl : Option Int) :
    List SchedAppt → Option SchedAppt × List SchedAppt
  | [] => (none, [])
  | b :: rest =>
    if conflictPred cand excl b then (some b, b :: rest)
    else
      let r := scanConflictSt cand excl rest
      (r.1, b :: r.2)

/-- The validate operation with the existing-appointments set threaded as
state, returning the result together with the set as left after the run. -/
def validateSt (env : SchedEnv) (cand : SchedCandidate) (existing : List SchedAppt)
    (excl : Option Int) : VResult × List SchedAppt :=
  if cand.endT ≤ cand.start then (.rejected .invalidInterval, existing)
  else
    match unresolvedRef env cand with
    | some k => (.rejected (.unresolvedReference k), existing)
    | none =>
      let r := scanConflictSt cand excl existing
      match r.1 with
      | some b => (.rejected (.schedulingConflict b), r.2)
      | none => (.ok, r.2)

/-- The state-threaded conflict scan finds exactly what the pure scan
finds and returns the traversed list unchanged. -/
theorem scanConflictSt_spec (cand : SchedCandidate) (excl : Option Int) :
    ∀ l : List SchedAppt,
      scanConflictSt cand excl l = (l.find? (conflictPred cand excl), l) := by
  intro l
  induction l with
  | nil => rfl
  | cons b rest ih =>
    by_cases h : conflictPred cand excl b
    · simp [scanConflictSt, h, List.find?_cons_of_pos]
    · simp [scanConflictSt, h, ih, List.find?_cons_of_neg,
        Bool.not_eq_true]

/-- Claim C3: validation rejects every candidate whose end is not strictly
after its start.  With both date strings parsing, the date-order refinement
of the form schema holds exactly when start is strictly before end, so the
schema rejects whenever end is at or before start; and the scheduler's
validate rejects every non-strict interval as InvalidInterval regardless of
the conflict state. -/
theorem c3_reject_nonpositive_interval (parse : String → Option Int) (a : FormInput)
    (s e : Int) (hs : parse a.appointment_date = some s) (he : parse a.end_date = some e) :
    (dateOrderOk parse a = true ↔ s < e)
    ∧ (e ≤ s → formAccepts parse a = false)
    ∧ (∀ (env : SchedEnv) (cand : SchedCandidate) (existing : List SchedAppt)
        (excl : Option Int), cand.endT ≤ cand.start →
          validate env cand existing excl = .rejected .invalidInterval) := by
  have hgt : dateOrderOk parse a = true ↔ s < e := by
    unfold dateOrderOk
    rw [hs, he]
    simp [jsDateGt]
  refine ⟨hgt, ?_, ?_⟩
  · intro hle
    have hfalse : dateOrderOk parse a = false := by
      cases hb : dateOrderOk parse a with
      | false => rfl
      | true => exact absurd (hgt.mp hb) (not_lt.mpr hle)
    unfold formAccepts appointmentFormErrors
    by_cases hb : formBaseErrors a = []
    · simp [hb, hfalse, dateRefinementErr]
    · simp [hb]
  · intro env cand existing excl hle
    unfold validate
    rw [if_pos hle]

/-- Claim C3 witness: the concrete candidate of scenario 3, start at 11:00
and end at 10:00 on the same day, both parsing, is rejected by the form
schema. -/
theorem c3_witness :
    ((dateOrderOk
        (fun str => if str = "2024-01-01T11:00" then some 39600000
          else if str = "2024-01-01T10:00" then some 36000000 else none)
        { client_id := 1, service := "Corte", price := 50, professional := "P",
          appointment_date := "2024-01-01T11:00", end_date := "2024-01-01T10:00",
          attended := none } = true ↔ (39600000 : Int) < 36000000)
      ∧ ((36000000 : Int) ≤ 39600000 → formAccepts
          (fun str => if str = "2024-01-01T11:00" then some 39600000
            else if str = "2024-01-01T10:00" then some 36000000 else none)
          { client_id := 1, service := "Corte", price := 50, professional := "P",
            appointment_date := "2024-01-01T11:00", end_date := "2024-01-01T10:00",
            attended := none } = false)
      ∧ (∀ (env : SchedEnv) (cand : SchedCandidate) (existing : List SchedAppt)
          (excl : Option Int), cand.endT ≤ cand.start →
            validate env cand existing excl = .rejected .invalidInterval)) :=
  c3_reject_nonpositive_interval _ _ 39600000 36000000 rfl rfl

/-- Claim C9: when either date string fails to parse, the date-order
refinement evaluates to false, so a base-valid candidate is rejected with
the end-after-start message attributed to end_date, even though the base
schema declares the date fields as plain unvalidated strings. -/
theorem c9_invalid_date_attributed_to_end_date (parse : String → Option Int)
    (a : FormInput)
    (h : parse a.appointment_date = none ∨ parse a.end_date = none) :
    dateOrderOk parse a = false
    ∧ (formBaseErrors a = [] → appointmentFormErrors parse a = [dateRefinementErr])
    ∧ formAccepts parse a = false := by
  have hfalse : dateOrderOk parse a = false := by
    unfold dateOrderOk
    rcases h with h | h
    · rw [h]
      cases parse a.end_date <;> rfl
    · rw [h]
      rfl
  refine ⟨hfalse, ?_, ?_⟩
  · intro hb
    unfold appointmentFormErrors
    simp [hb, hfalse]
  · unfold formAccepts appointmentFormErrors
    by_cases hb : formBaseErrors a = []
    · simp [hb, hfalse, dateRefinementErr]
    · simp [hb]

/-- Claim C9 witness: a base-valid form input whose date strings do not
parse at all is rejected, with the failure attributed to end_date under the
end-after-start message. -/
theorem c9_witness :
    (dateOrderOk (fun _ => none)
        { client_id := 1, service := "Corte", price := 50, professional := "P",
          appointment_date := "not a date", end_date := "also not a date",
          attended := none } = false)
    ∧ (formBaseErrors
        { client_id := 1, service := "Corte", price := 50, professional := "P",
          appointment_date := "not a date", end_date := "also not a date",
          attended := none } = [] →
        appointmentFormErrors (fun _ => none)
          { client_id := 1, service := "Corte", price := 50, professional := "P",
            appointment_date := "not a date", end_date := "also not a date",
            attended := none } = [dateRefinementErr])
    ∧ formAccepts (fun _ => none)
        { client_id := 1, service := "Corte", price := 50, professional := "P",
          appointment_date := "not a date", end_date := "also not a date",
          attended := none } = false :=
  c9_invalid_date_attributed_to_end_date _ _ (Or.inl rfl)

/-- Claim C10: loading a stored non-negative integer price p in minor
units into the edit form displays p / 100, and resubmitting converts it
back with Math.round((p / 100) * 100) = p, so an untouched price field
round-trips exactly. -/
theorem c10_price_round_trip (p : Int) (hp : 0 ≤ p) :
    jsRound (editFormPrice (p : Rat) * 100) = p := by
  have h1 : editFormPrice (p : Rat) * 100 = (p : Rat) := by
    unfold editFormPrice
    field_simp
  rw [h1]
  unfold jsRound
  rw [Int.floor_eq_iff]
  constructor
  · linarith
  · linarith

/-- Claim C10 witness: a stored price of 5000 cents is displayed as 50 and
stored back as 5000. -/
theorem c10_witness : (0 : Int) ≤ 5000 ∧ jsRound (editFormPrice ((5000 : Int) : Rat) * 100) = 5000 :=
  ⟨by norm_num, c10_price_round_trip 5000 (by norm_num)⟩

/-- Claim C7 counterexample: the form price 1/1000 passes the positive
price check of the schema, yet Math.round(price * 100) is 0, which is not
positive — the stored price of an accepted submission can be zero. -/
theorem c7_counterexample :
    (0 < (1 / 1000 : Rat)) ∧ jsRound ((1 / 1000 : Rat) * 100) = 0 ∧ ¬(0 < (0 : Int)) := by
  refine ⟨by norm_num, ?_, by norm_num⟩
  unfold jsRound
  rw [Int.floor_eq_iff]
  norm_num

/-- Claim C7 as amended: for every accepted form input (price validated
strictly positive by the schema), the payload built by onSubmit stores
exactly Math.round(price * 100), an integer in minor units, and that
integer is non-negative (it can be zero for accepted prices below 0.005,
so positivity of the stored value does not hold). -/
theorem c7_price_minor_units_nonneg (data : FormInput) (client : Client)
    (e : AppointmentRecord) (uid : String) (hp : 0 < data.price) :
    (mergedRecord e client data).price = ((jsRound (data.price * 100) : Int) : Rat)
    ∧ (newRecord uid client data).price = ((jsRound (data.price * 100) : Int) : Rat)
    ∧ 0 ≤ jsRound (data.price * 100) := by
  refine ⟨rfl, rfl, ?_⟩
  unfold jsRound
  rw [Int.le_floor]
  push_cast
  nlinarith

/-- Claim C7 witness: a form price of 50 (major units) is stored as the
non-negative integer Math.round(50 * 100). -/
theorem c7_witness :
    (mergedRecord
        { id := some 1, user_id := "u", client_id := 1, client_name := "Ana",
          service := "Corte", price := 5000, professional := "P",
          appointment_date := "2024-01-01T10:00", end_date := "2024-01-01T11:00",
          attended := false }
        { id := some 1, user_id := "u", name := "Ana", phone := none,
          email := none, notes := none }
        { client_id := 1, service := "Corte", price := 50, professional := "P",
          appointment_date := "2024-01-01T10:00", end_date := "2024-01-01T11:00",
          attended := none }).price
      = ((jsRound ((50 : Rat) * 100) : Int) : Rat)
    ∧ (newRecord "u"
        { id := some 1, user_id := "u", name := "Ana", phone := none,
          email := none, notes := none }
        { client_id := 1, service := "Corte", price := 50, professional := "P",
          appointment_date := "2024-01-01T10:00", end_date := "2024-01-01T11:00",
          attended := none }).price
      = ((jsRound ((50 : Rat) * 100) : Int) : Rat)
    ∧ 0 ≤ jsRound ((50 : Rat) * 100) :=
  c7_price_minor_units_nonneg _ _ _ _ (by norm_num)

/-- Claim C2 counterexample: for the scenario appointment (service
Haircut, 30 minutes, starting 2024-01-01T10:00 which parses to timestamp
0), the calendar derivation sets the event end to start + 3600000 ms (one
hour), not start + 30 * 60000 ms as the service duration would demand. -/
theorem c2_counterexample :
    (calendarEventOf
        (fun str => if str = "2024-01-01T10:00" then some 0 else none)
        { id := some 1, user_id := "u", client_id := 1, client_name := "Ana",
          service := "Haircut", price := 5000, professional := "P",
          appointment_date := "2024-01-01T10:00", end_date := "2024-01-01T10:30",
          attended := false }).endMs = some 3600000
    ∧ some (3600000 : Int) ≠ some ((0 : Int) + 30 * 60000) := by
  constructor
  · rfl
  · decide

/-- Claim C2 as amended: for every appointment whose start date parses,
the calendar event derivation sets the event start to the parsed start and
the event end to start plus 60 minutes, regardless of the selected service
and of any service duration; no price is derived. -/
theorem c2_calendar_end_sixty_minutes (parse : String → Option Int)
    (a : AppointmentRecord) (s : Int) (h : parse a.appointment_date = some s) :
    (calendarEventOf parse a).startMs = some s
    ∧ (calendarEventOf parse a).endMs = some (s + 60 * 60000) := by
  unfold calendarEventOf
  rw [h]
  exact ⟨rfl, by norm_num⟩

/-- Claim C2 witness: the scenario appointment starting at timestamp 0
yields a calendar event from 0 to 3600000 ms. -/
theorem c2_witness :
    (calendarEventOf
        (fun str => if str = "2024-01-01T10:00" then some 0 else none)
        { id := some 1, user_id := "u", client_id := 1, client_name := "Ana",
          service := "Haircut", price := 5000, professional := "P",
          appointment_date := "2024-01-01T10:00", end_date := "2024-01-01T10:30",
          attended := false }).startMs = some 0
    ∧ (calendarEventOf
        (fun str => if str = "2024-01-01T10:00" then some 0 else none)
        { id := some 1, user_id := "u", client_id := 1, client_name := "Ana",
          service := "Haircut", price := 5000, professional := "P",
          appointment_date := "2024-01-01T10:00", end_date := "2024-01-01T10:30",
          attended := false }).endMs = some ((0 : Int) + 60 * 60000) :=
  c2_calendar_end_sixty_minutes _ _ 0 rfl

/-- Claim C1: for a candidate with a valid interval and resolved
references, validate reports a SchedulingConflict exactly when some
existing appointment of the same professional overlaps it in the half-open
sense (candidate.start < other.end and other.start < candidate.end); in
particular appointments of other professionals and back-to-back
appointments never trigger it, and a conflicting candidate makes commit
return the error instead of writing. -/
theorem c1_conflict_iff_overlap (env : SchedEnv) (cand : SchedCandidate)
    (existing : List SchedAppt) (hint : cand.start < cand.endT)
    (href : unresolvedRef env cand = none) :
    ((∃ b, validate env cand existing none = .rejected (.schedulingConflict b))
        ↔ ∃ b ∈ existing, b.professional_id = cand.professional_id
            ∧ cand.start < b.endT ∧ b.start < cand.endT)
    ∧ (∀ (b : SchedAppt) (freshId : Int),
        validate env cand existing none = .rejected (.schedulingConflict b) →
          commitOp env cand existing freshId = .error (.schedulingConflict b)) := by
  have hv : validate env cand existing none =
      match findConflict cand existing none with
      | some b => .rejected (.schedulingConflict b)
      | none => .ok := by
    unfold validate
    rw [if_neg (not_le.mpr hint), href]
  constructor
  · constructor
    · rintro ⟨b, hb⟩
      rw [hv] at hb
      cases hfc : findConflict cand existing none with
      | none =>
        rw [hfc] at hb
        cases hb
      | some x =>
        rw [hfc] at hb
        have hxeq : x = b := by
          cases hb
          rfl
        subst hxeq
        have hmem := List.mem_of_find?_eq_some hfc
        have hpred := List.find?_some hfc
        simp only [conflictPred, Bool.and_eq_true, beq_iff_eq,
          decide_eq_true_eq] at hpred
        exact ⟨x, hmem, hpred.1.1, hpred.2⟩
    · rintro ⟨b, hbmem, hprof, h1, h2⟩
      have hsome : (existing.find? (conflictPred cand none)).isSome := by
        rw [List.find?_isSome]
        refine ⟨b, hbmem, ?_⟩
        simp [conflictPred, hprof, h1, h2]
      rcases Option.isSome_iff_exists.mp hsome with ⟨x, hx⟩
      refine ⟨x, ?_⟩
      rw [hv]
      unfold findConflict
      rw [hx]
  · intro b freshId hc
    unfold commitOp
    rw [hc]

/-- Claim C1 witness: professional 2 already has an appointment from 0 to
60 minutes (in ms); a candidate for the same professional from minute 30
to minute 90 is reported as a conflict and commit refuses it, matching the
overlap characterization. -/
theorem c1_witness :
    ((∃ b, validate { clients := [1], professionals := [2], services := [3] }
          { id := none, client_id := 1, professional_id := 2, service_id := 3,
            price := 5000, start := 1800000, endT := 5400000 }
          [{ id := 7, client_id := 1, professional_id := 2, service_id := 3,
             price := 5000, start := 0, endT := 3600000 }] none
        = .rejected (.schedulingConflict b))
      ↔ ∃ b, b ∈ [({ id := 7, client_id := 1, professional_id := 2,
                       service_id := 3, price := 5000, start := 0,
                       endT := 3600000 } : SchedAppt)]
          ∧ b.professional_id = 2 ∧ (1800000 : Int) < b.endT ∧ b.start < (5400000 : Int))
    ∧ (∀ (b : SchedAppt) (freshId : Int),
        validate { clients := [1], professionals := [2], services := [3] }
          { id := none, client_id := 1, professional_id := 2, service_id := 3,
            price := 5000, start := 1800000, endT := 5400000 }
          [{ id := 7, client_id := 1, professional_id := 2, service_id := 3,
             price := 5000, start := 0, endT := 3600000 }] none
          = .rejected (.schedulingConflict b) →
          commitOp { clients := [1], professionals := [2], services := [3] }
            { id := none, client_id := 1, professional_id := 2, service_id := 3,
              price := 5000, start := 1800000, endT := 5400000 }
            [{ id := 7, client_id := 1, professional_id := 2, service_id := 3,
               price := 5000, start := 0, endT := 3600000 }] freshId
            = .error (.schedulingConflict b)) :=
  c1_conflict_iff_overlap _ _ _ (by decide) (by decide)

/-- Claim C4: every committed candidate has all three of its client,
professional and service references resolved against the owner's records;
a candidate whose client_id is absent from the owner's client list is
rejected as UnresolvedReference identifying the client, commit performs no
write for it, and at the submission handler a missing client aborts with
no store call at all. -/
theorem c4_references_must_resolve (env : SchedEnv) (cand : SchedCandidate)
    (existing : List SchedAppt) (excl : Option Int) (freshId : Int)
    (hint : cand.start < cand.endT) :
    (env.clients.contains cand.client_id = false →
        validate env cand existing excl = .rejected (.unresolvedReference .client)
        ∧ commitOp env cand existing freshId = .error (.unresolvedReference .client))
    ∧ (validate env cand existing excl = .ok →
        env.clients.contains cand.client_id = true
        ∧ env.professionals.contains cand.professional_id = true
        ∧ env.services.contains cand.service_id = true)
    ∧ (∀ (clients : List Client) (editing : Option AppointmentRecord)
        (uid : String) (data : FormInput),
          findClient clients data.client_id = none →
            onSubmitWrites clients editing uid data = (.clientNotFound, [])) := by
  refine ⟨?_, ?_, ?_⟩
  · intro hcl
    have hur : unresolvedRef env cand = some .client := by
      unfold unresolvedRef
      have hc : ¬(env.clients.contains cand.client_id = true) := by
        rw [hcl]
        exact Bool.false_ne_true
      rw [if_neg hc]
    have hval : ∀ ex : Option Int,
        validate env cand existing ex = .rejected (.unresolvedReference .client) := by
      intro ex
      unfold validate
      rw [if_neg (not_le.mpr hint), hur]
    refine ⟨hval excl, ?_⟩
    unfold commitOp
    rw [hval none]
  · intro hok
    have hnr : unresolvedRef env cand = none := by
      cases hu : unresolvedRef env cand with
      | none => rfl
      | some k =>
        unfold validate at hok
        rw [if_neg (not_le.mpr hint), hu] at hok
        cases hok
    unfold unresolvedRef at hnr
    by_cases h1 : env.clients.contains cand.client_id
    · by_cases h2 : env.professionals.contains cand.professional_id
      · by_cases h3 : env.services.contains cand.service_id
        · exact ⟨h1, h2, h3⟩
        · rw [if_pos h1, if_pos h2, if_neg h3] at hnr
          cases hnr
      · rw [if_pos h1, if_neg h2] at hnr
        cases hnr
    · rw [if_neg h1] at hnr
      cases hnr
  · intro clients editing uid data hfind
    unfold onSubmitWrites
    rw [hfind]

/-- Claim C4 witness: a candidate referencing client 9, absent from the
owner's client list, is rejected as an unresolved client reference with no
write; and a submission whose client lookup fails issues no store call. -/
theorem c4_witness :
    (List.contains [1] (9 : Int) = false →
        validate { clients := [1], professionals := [2], services := [3] }
          { id := none, client_id := 9, professional_id := 2, service_id := 3,
            price := 5000, start := 0, endT := 3600000 } [] none
          = .rejected (.unresolvedReference .client)
        ∧ commitOp { clients := [1], professionals := [2], services := [3] }
            { id := none, client_id := 9, professional_id := 2, service_id := 3,
              price := 5000, start := 0, endT := 3600000 } [] 11
            = .error (.unresolvedReference .client))
    ∧ (validate { clients := [1], professionals := [2], services := [3] }
          { id := none, client_id := 9, professional_id := 2, service_id := 3,
            price := 5000, start := 0, endT := 3600000 } [] none = .ok →
        List.contains [1] (9 : Int) = true
        ∧ List.contains [2] (2 : Int) = true
        ∧ List.contains [3] (3 : Int) = true)
    ∧ (∀ (clients : List Client) (editing : Option AppointmentRecord)
        (uid : String) (data : FormInput),
          findClient clients data.client_id = none →
            onSubmitWrites clients editing uid data = (.clientNotFound, [])) :=
  c4_references_must_resolve
    { clients := [1], professionals := [2], services := [3] }
    { id := none, client_id := 9, professional_id := 2, service_id := 3,
      price := 5000, start := 0, endT := 3600000 } [] none 11 (by decide)

/-- Claim C5: editing appointment X validates with excludeId = X.id, so
when the edited candidate collides with no other appointment of the same
professional, the update succeeds, even though its new interval may
overlap X's own stored prior interval. -/
theorem c5_exclude_own_interval (env : SchedEnv) (cand : SchedCandidate)
    (x : SchedAppt) (existing : List SchedAppt)
    (hid : cand.id = some x.id)
    (hint : cand.start < cand.endT)
    (href : unresolvedRef env cand = none)
    (hothers : ∀ b ∈ existing, b.id ≠ x.id →
        b.professional_id = cand.professional_id →
        ¬(cand.start < b.endT ∧ b.start < cand.endT)) :
    updateOp env cand x.id existing =
      .ok (existing.map (fun b => if b.id == x.id then persistCand cand x.id else b)) := by
  have hfc : findConflict cand existing (some x.id) = none := by
    unfold findConflict
    rw [List.find?_eq_none]
    intro b hb
    simp only [conflictPred, Bool.and_eq_true, beq_iff_eq, bne_iff_ne,
      decide_eq_true_eq]
    rintro ⟨⟨hpr, hne⟩, hov⟩
    exact hothers b hb hne hpr hov
  unfold updateOp validate
  rw [if_neg (not_le.mpr hint), href, hfc]

/-- Claim C5 witness: appointment 7 (professional 2, minute 0 to 60) is
edited to minute 30 to 90; no other appointment exists, so the update
succeeds although the new interval overlaps the prior stored interval of
appointment 7 itself. -/
theorem c5_witness :
    ((1800000 : Int) < 3600000 ∧ (0 : Int) < 5400000)
    ∧ updateOp { clients := [1], professionals := [2], services := [3] }
        { id := some 7, client_id := 1, professional_id := 2, service_id := 3,
          price := 5000, start := 1800000, endT := 5400000 } 7
        [{ id := 7, client_id := 1, professional_id := 2, service_id := 3,
           price := 5000, start := 0, endT := 3600000 }]
      = .ok [{ id := 7, client_id := 1, professional_id := 2, service_id := 3,
               price := 5000, start := 1800000, endT := 5400000 }] := by
  constructor
  · exact ⟨by norm_num, by norm_num⟩
  · have h := c5_exclude_own_interval
      { clients := [1], professionals := [2], services := [3] }
      { id := some 7, client_id := 1, professional_id := 2, service_id := 3,
        price := 5000, start := 1800000, endT := 5400000 }
      { id := 7, client_id := 1, professional_id := 2, service_id := 3,
        price := 5000, start := 0, endT := 3600000 }
      [{ id := 7, client_id := 1, professional_id := 2, service_id := 3,
         price := 5000, start := 0, endT := 3600000 }]
      rfl (by decide) (by decide)
      (by
        intro b hb hne hpr
        simp only [List.mem_singleton] at hb
        subst hb
        exact absurd rfl hne)
    simpa using h

/-- Claim C8: validate is pure with respect to its inputs: run with the
existing-appointments set threaded as explicit state, it leaves that set
unchanged and produces the same result as the pure validate on every
input, so equal inputs give equal results and no mutation occurs. -/
theorem c8_validate_pure (env : SchedEnv) (cand : SchedCandidate)
    (existing : List SchedAppt) (excl : Option Int) :
    (validateSt env cand existing excl).2 = existing
    ∧ (validateSt env cand existing excl).1 = validate env cand existing excl := by
  have hs := scanConflictSt_spec cand excl existing
  unfold validateSt validate
  rw [hs]
  by_cases h : cand.endT ≤ cand.start
  · rw [if_pos h, if_pos h]
    exact ⟨rfl, rfl⟩
  · rw [if_neg h, if_neg h]
    cases unresolvedRef env cand with
    | some k => exact ⟨rfl, rfl⟩
    | none =>
      unfold findConflict
      cases existing.find? (conflictPred cand excl) with
      | some b => exact ⟨rfl, rfl⟩
      | none => exact ⟨rfl, rfl⟩

/-- Claim C6: the system never partially commits: the submission pipeline
validates the schema and resolves the client before any write, so every
failing submission issues no write and leaves the stored set unchanged, a
successful submission issues exactly one write, and the scheduler's commit
refuses to produce a new stored set whenever validate is not Ok. -/
theorem c6_no_partial_commit (parse : String → Option Int) (clients : List Client)
    (editing : Option AppointmentRecord) (uid : String) (data : FormInput)
    (store : List AppointmentRecord) (freshId : Rat)
    (env : SchedEnv) (cand : SchedCandidate) (existing : List SchedAppt) (fid : Int) :
    ((submitPipeline parse clients editing uid data).1 ≠ .saved →
        (submitPipeline parse clients editing uid data).2 = []
        ∧ applyWrites freshId store (submitPipeline parse clients editing uid data).2 = store)
    ∧ ((submitPipeline parse clients editing uid data).1 = .saved →
        (submitPipeline parse clients editing uid data).2.length = 1)
    ∧ (validate env cand existing none ≠ .ok →
        ∃ r, commitOp env cand existing fid = .error r) := by
  refine ⟨?_, ?_, ?_⟩
  · intro hns
    unfold submitPipeline at hns ⊢
    by_cases hacc : formAccepts parse data
    · rw [if_pos hacc] at hns ⊢
      unfold onSubmitWrites at hns ⊢
      cases hfc : findClient clients data.client_id with
      | none => exact ⟨rfl, rfl⟩
      | some client =>
        rw [hfc] at hns
        cases editing <;> simp at hns
    · rw [if_neg hacc]
      exact ⟨rfl, rfl⟩
  · intro hsaved
    unfold submitPipeline at hsaved ⊢
    by_cases hacc : formAccepts parse data
    · rw [if_pos hacc] at hsaved ⊢
      unfold onSubmitWrites at hsaved ⊢
      cases hfc : findClient clients data.client_id with
      | none =>
        rw [hfc] at hsaved
        simp at hsaved
      | some client => cases editing <;> rfl
    · rw [if_neg hacc] at hsaved
      cases hsaved
  · intro hne
    cases hv : validate env cand existing none with
    | ok => exact absurd hv hne
    | rejected r =>
      refine ⟨r, ?_⟩
      unfold commitOp
      rw [hv]

/-- Claim C6 witness: a submission whose schema validation fails (no
client selected) issues no write and leaves the store unchanged, and a
scheduler candidate with an inverted interval makes commit return an error
rather than a new stored set. -/
theorem c6_witness :
    ((submitPipeline (fun _ => none) [] none "u"
        { client_id := 0, service := "", price := 0, professional := "",
          appointment_date := "x", end_date := "y", attended := none }).1 ≠ .saved →
        (submitPipeline (fun _ => none) [] none "u"
          { client_id := 0, service := "", price := 0, professional := "",
            appointment_date := "x", end_date := "y", attended := none }).2 = []
        ∧ applyWrites 1 []
            (submitPipeline (fun _ => none) [] none "u"
              { client_id := 0, service := "", price := 0, professional := "",
                appointment_date := "x", end_date := "y", attended := none }).2 = [])
    ∧ ((submitPipeline (fun _ => none) [] none "u"
        { client_id := 0, service := "", price := 0, professional := "",
          appointment_date := "x", end_date := "y", attended := none }).1 = .saved →
        (submitPipeline (fun _ => none) [] none "u"
          { client_id := 0, service := "", price := 0, professional := "",
            appointment_date := "x", end_date := "y", attended := none }).2.length = 1)
    ∧ (validate { clients := [1], professionals := [2], services := [3] }
        { id := none, client_id := 1, professional_id := 2, service_id := 3,
          price := 5000, start := 3600000, endT := 0 } [] none ≠ .ok →
        ∃ r, commitOp { clients := [1], professionals := [2], services := [3] }
          { id := none, client_id := 1, professional_id := 2, service_id := 3,
            price := 5000, start := 3600000, endT := 0 } [] 11 = .error r) :=
  c6_no_partial_commit (fun _ => none) [] none "u"
    { client_id := 0, service := "", price := 0, professional := "",
      appointment_date := "x", end_date := "y", attended := none } [] 1
    { clients := [1], professionals := [2], services := [3] }
    { id := none, client_id := 1, professional_id := 2, service_id := 3,
      price := 5000, start := 3600000, endT := 0 } [] 11

end SalonFlow
